import Mathlib

/-!
Verification of the Firestore-Helper module (src/Firestore-Helper.js).

The module is a thin adapter over the Firebase Firestore, Storage and Auth
client SDKs.  We embed each exported function shallowly:

* JavaScript values are the inductive `JSVal`; JavaScript objects are
  association lists `JSObj` read and written through `objGet` / `objSet`,
  which mirror property access and assignment (assignment replaces an
  existing key in place, otherwise appends).
* The ambient Firestore database is `Db`, a map from collection name to
  `Collection`, itself a map from document id to document.
* The backing SDK is an external collaborator; its documented contract is
  modelled explicitly where a helper depends on it (upsert `set`, rejecting
  `update` on a missing document, no-op `delete` of an absent document,
  `set` and `update` resolving with no value, query building and execution).
* A call into one of the helpers yields an `Outcome`: the function can throw
  synchronously before a promise exists (`thrown`), or return a promise that
  resolves, rejects, or never settles (`pending`).  The distinction matters:
  code that runs before the `new Promise(...)` executor throws to the
  caller, code inside the executor rejects the promise, and a rejection
  inside an `async` executor is swallowed so the promise never settles.
* Nondeterministic or ambient inputs (the server timestamp, the fresh
  document id produced by `doc()`, the authenticated user, a backing-store
  failure) are passed as explicit parameters.
-/

/-- A JavaScript value, restricted to the shapes the helper module handles. -/
inductive JSVal where
  | undef
  | null
  | bool (b : Bool)
  | num (n : Int)
  | str (s : String)
  | timestamp (t : Int)
deriving DecidableEq

/-- A JavaScript object: an association list of properties in insertion
order, with at most one entry per key in any object built by the embedding. -/
abbrev JSObj := List (String × JSVal)

/-- One Firestore collection: documents keyed by id. -/
abbrev Collection := List (String × JSObj)

/-- The Firestore database: collections keyed by name. -/
abbrev Db := List (String × Collection)

/-- Lookup in an association list (first match). -/
def alGet {α : Type} : List (String × α) → String → Option α
  | [], _ => none
  | (k1, v) :: rest, k => if k1 = k then some v else alGet rest k

/-- Keyed update of an association list: replaces the first entry with the
key in place, appends when the key is absent (JavaScript property
assignment, and the upsert `set` of the backing store). -/
def alSet {α : Type} : List (String × α) → String → α → List (String × α)
  | [], k, v => [(k, v)]
  | (k1, v1) :: rest, k, v =>
    if k1 = k then (k, v) :: rest else (k1, v1) :: alSet rest k v

/-- Removal of every entry with the key (the delete of the backing store;
a no-op when the key is absent). -/
def alDel {α : Type} : List (String × α) → String → List (String × α)
  | [], _ => []
  | (k1, v1) :: rest, k =>
    if k1 = k then alDel rest k else (k1, v1) :: alDel rest k

theorem alGet_alSet {α : Type} (l : List (String × α)) (k k1 : String) (v : α) :
    alGet (alSet l k v) k1 = if k = k1 then some v else alGet l k1 := by
  induction l with
  | nil => by_cases h : k = k1 <;> simp [alSet, alGet, h]
  | cons p rest ih =>
    obtain ⟨k2, v2⟩ := p
    by_cases h2 : k2 = k
    · subst h2
      have e1 : alSet ((k2, v2) :: rest) k2 v = (k2, v) :: rest := by simp [alSet]
      rw [e1]
      by_cases h3 : k2 = k1 <;> simp [alGet, h3]
    · have e1 : alSet ((k2, v2) :: rest) k v = (k2, v2) :: alSet rest k v := by
        simp [alSet, h2]
      rw [e1]
      by_cases h3 : k2 = k1
      · subst h3
        have hne : ¬(k = k2) := fun h => h2 h.symm
        simp [alGet, hne]
      · simp [alGet, h3, ih]

theorem alGet_alDel {α : Type} (l : List (String × α)) (k k1 : String) :
    alGet (alDel l k) k1 = if k = k1 then none else alGet l k1 := by
  induction l with
  | nil => by_cases h : k = k1 <;> simp [alDel, alGet, h]
  | cons p rest ih =>
    obtain ⟨k2, v2⟩ := p
    by_cases h2 : k2 = k
    · subst h2
      have e1 : alDel ((k2, v2) :: rest) k2 = alDel rest k2 := by simp [alDel]
      rw [e1, ih]
      by_cases h3 : k2 = k1
      · simp [h3]
      · simp [alGet, h3]
    · have e1 : alDel ((k2, v2) :: rest) k = (k2, v2) :: alDel rest k := by
        simp [alDel, h2]
      rw [e1]
      by_cases h3 : k2 = k1
      · subst h3
        have hne : ¬(k = k2) := fun h => h2 h.symm
        simp [alGet, hne]
      · simp [alGet, h3, ih]

theorem alDel_alDel {α : Type} (l : List (String × α)) (k : String) :
    alDel (alDel l k) k = alDel l k := by
  induction l with
  | nil => rfl
  | cons p rest ih =>
    obtain ⟨k2, v2⟩ := p
    by_cases h2 : k2 = k <;> simp [alDel, h2, ih]

theorem alSet_alSet {α : Type} (l : List (String × α)) (k : String) (v w : α) :
    alSet (alSet l k v) k w = alSet l k w := by
  induction l with
  | nil => simp [alSet]
  | cons p rest ih =>
    obtain ⟨k2, v2⟩ := p
    by_cases h2 : k2 = k <;> simp [alSet, h2, ih]

theorem mem_keys_alSet {α : Type} (l : List (String × α)) (k k1 : String) (v : α) :
    k1 ∈ (alSet l k v).map Prod.fst ↔ k1 = k ∨ k1 ∈ l.map Prod.fst := by
  induction l with
  | nil => simp [alSet]
  | cons p rest ih =>
    obtain ⟨k2, v2⟩ := p
    by_cases h2 : k2 = k
    · subst h2; simp [alSet]
    · simp [alSet, h2, ih]
      tauto

theorem nodup_keys_alSet {α : Type} (l : List (String × α)) (k : String) (v : α)
    (h : (l.map Prod.fst).Nodup) : ((alSet l k v).map Prod.fst).Nodup := by
  induction l with
  | nil => simp [alSet]
  | cons p rest ih =>
    obtain ⟨k2, v2⟩ := p
    rw [List.map_cons, List.nodup_cons] at h
    by_cases h2 : k2 = k
    · subst h2
      have e1 : alSet ((k2, v2) :: rest) k2 v = (k2, v) :: rest := by simp [alSet]
      rw [e1, List.map_cons, List.nodup_cons]
      exact h
    · have e1 : alSet ((k2, v2) :: rest) k v = (k2, v2) :: alSet rest k v := by
        simp [alSet, h2]
      rw [e1, List.map_cons, List.nodup_cons]
      constructor
      · intro hmem
        rcases (mem_keys_alSet rest k k2 v).mp hmem with h3 | h3
        · exact h2 h3
        · exact h.1 h3
      · exact ih h.2

/-- Property read, `o[k]`: an absent property reads as undefined. -/
def objGet (o : JSObj) (k : String) : JSVal :=
  match alGet o k with
  | none => JSVal.undef
  | some v => v

/-- Property write, `o[k] = v`. -/
def objSet (o : JSObj) (k : String) (v : JSVal) : JSObj :=
  alSet o k v

theorem objGet_objSet (o : JSObj) (k k1 : String) (v : JSVal) :
    objGet (objSet o k v) k1 = if k = k1 then v else objGet o k1 := by
  unfold objGet objSet
  rw [alGet_alSet]
  by_cases h : k = k1 <;> simp [h]

/-- The partial merge the backing store performs for `update(data)`: every
property of `m` is written onto `base`, properties of `base` outside `m`
are untouched. -/
def objMerge (base m : JSObj) : JSObj :=
  m.foldl (fun acc p => alSet acc p.1 p.2) base

theorem alGet_objMerge_notMem (base m : JSObj) (k : String)
    (h : k ∉ m.map Prod.fst) : alGet (objMerge base m) k = alGet base k := by
  induction m generalizing base with
  | nil => rfl
  | cons p rest ih =>
    obtain ⟨k1, v1⟩ := p
    rw [List.map_cons] at h
    have hne : ¬(k1 = k) := fun h1 => h (by rw [h1]; exact List.mem_cons_self _ _)
    have hrest : k ∉ rest.map Prod.fst := fun h1 => h (List.mem_cons_of_mem _ h1)
    have step : objMerge base ((k1, v1) :: rest) = objMerge (alSet base k1 v1) rest := rfl
    rw [step, ih (alSet base k1 v1) hrest, alGet_alSet, if_neg hne]

theorem alGet_objMerge_mem (base m : JSObj) (k : String) (v : JSVal)
    (hnd : (m.map Prod.fst).Nodup) (h : alGet m k = some v) :
    alGet (objMerge base m) k = some v := by
  induction m generalizing base with
  | nil => simp [alGet] at h
  | cons p rest ih =>
    obtain ⟨k1, v1⟩ := p
    rw [List.map_cons, List.nodup_cons] at hnd
    have step : objMerge base ((k1, v1) :: rest) = objMerge (alSet base k1 v1) rest := rfl
    by_cases h1 : k1 = k
    · subst h1
      rw [show alGet ((k1, v1) :: rest) k1 = some v1 by simp [alGet]] at h
      injection h with h
      subst h
      rw [step, alGet_objMerge_notMem _ _ _ hnd.1, alGet_alSet, if_pos rfl]
    · rw [show alGet ((k1, v1) :: rest) k = alGet rest k by simp [alGet, h1]] at h
      exact step ▸ ih (alSet base k1 v1) hnd.2 h

/-- Read of a whole collection from the database: a name never written maps
to the empty collection. -/
def dbGet (db : Db) (c : String) : Collection :=
  (alGet db c).getD []

/-- Replacement of a whole collection in the database. -/
def dbSet (db : Db) (c : String) (col : Collection) : Db :=
  alSet db c col

theorem dbGet_dbSet_self (db : Db) (c : String) (col : Collection) :
    dbGet (dbSet db c col) c = col := by
  unfold dbGet dbSet
  rw [alGet_alSet]
  simp

/-- The observable result of calling one of the helper functions.  A helper
can throw before the promise is constructed (`thrown`), or return a promise
that resolves (`resolved`), rejects (`rejected`), or never settles
(`pending`, the fate of a promise whose async executor fails without ever
invoking resolve or reject). -/
inductive Outcome (α : Type) where
  | thrown (e : JSVal)
  | resolved (a : α)
  | rejected (e : JSVal)
  | pending
deriving DecidableEq

/-- Result of a helper that mutates its caller-supplied data object: the
data object after the call, the database after the call, and the settled
state of the returned promise. -/
structure CallResult (α : Type) where
  data : JSObj
  db : Db
  outcome : Outcome α
deriving DecidableEq

/-- Modelled from the backing SDK contract: `ref.set(data)` upserts the
document at `refId` (no error on collision) and resolves with no value. -/
def refSet (col : Collection) (refId : String) (d : JSObj) : Collection :=
  alSet col refId d

/-- Modelled from the backing SDK contract: `ref.update(data)` rejects with
a not-found error when the document is absent, and otherwise applies a
partial merge of `data` onto the stored document. -/
def refUpdate (col : Collection) (refId : String) (d : JSObj) :
    Except JSVal Collection :=
  match alGet col refId with
  | none => .error (.str "NotFoundError")
  | some doc => .ok (alSet col refId (objMerge doc d))

/-- Second half of `addRecord` (the body of its promise executor from
line 23 on): `data.id = ref.id`, then `ref.set(data)`.  The backing call
`set` resolves with no value, so the `snapshot` the code spreads is
undefined and the resolved object `\x7bid: data.id, ...snapshot\x7d` carries
only the id. -/
def addRecordWithRef (db : Db) (collection : String) (data : JSObj)
    (refId : String) (writeErr : Option JSVal) : CallResult JSObj :=
  let data := objSet data "id" (.str refId)
  match writeErr with
  | some e => ⟨data, db, .rejected e⟩
  | none =>
    ⟨data, dbSet db collection (refSet (dbGet db collection) refId data),
      .resolved [("id", .str refId)]⟩

/-- `addRecord` (src/Firestore-Helper.js lines 15-37).  `now` is the server
timestamp `Timestamp.now()`, `freshId` is the id the backing store mints
for `doc()` with no argument, and `writeErr` is the failure, if any, of the
backing write. -/
def addRecord (db : Db) (collection : String) (data : JSObj)
    (freshId : String) (now : Int) (writeErr : Option JSVal) : CallResult JSObj :=
  -- line 16, before the promise executor: data.created_at = Timestamp.now()
  let data := objSet data "created_at" (.timestamp now)
  -- lines 19-22: ref := (id undefined or null) ? doc() : doc(data.id)
  let idv := objGet data "id"
  if idv = .undef ∨ idv = .null then
    addRecordWithRef db collection data freshId writeErr
  else
    match idv with
    | .str s => addRecordWithRef db collection data s writeErr
    | _ =>
      -- doc(data.id) with a non-string argument throws inside the executor,
      -- which the promise constructor turns into a rejection
      ⟨data, db, .rejected (.str "FirestoreError: invalid document reference")⟩

/-- `editRecord` (lines 46-60).  Injects `updated_at` into the caller
object, then `ref.update(data)`; `update` resolves with no value, so the
code resolves the promise with undefined. -/
def editRecord (db : Db) (collection : String) (id : String) (data : JSObj)
    (now : Int) (writeErr : Option JSVal) : CallResult JSVal :=
  -- line 47, before the promise executor: data.updated_at = Timestamp.now()
  let data := objSet data "updated_at" (.timestamp now)
  match writeErr with
  | some e => ⟨data, db, .rejected e⟩
  | none =>
    match refUpdate (dbGet db collection) id data with
    | .error e => ⟨data, db, .rejected e⟩
    | .ok col => ⟨data, dbSet db collection col, .resolved .undef⟩

/-- `deleteRecord` (lines 69-81).  The backing delete succeeds whether or
not the document exists; `storeErr` is a backing-store failure, if any. -/
def deleteRecord (db : Db) (collection : String) (id : String)
    (storeErr : Option JSVal) : Db × Outcome JSVal :=
  match storeErr with
  | some e => (db, .rejected e)
  | none => (dbSet db collection (alDel (dbGet db collection) id), .resolved .undef)

/-- The exception raised by `firebase.auth().currentUser.uid` when
`currentUser` is null. -/
def nullUserError : JSVal :=
  .str "TypeError: Cannot read property uid of null"

/-- `deleteRecordSoft` (lines 89-106).  Lines 90-93 run before the promise
is constructed: with no authenticated user, `firebase.auth().currentUser`
is null and reading `.uid` throws synchronously to the caller, so no
promise is ever returned.  With a user, the update object is exactly
`\x7bupdated_at, updated_by, deleted\x7d` and is applied through the same
backing `update` as `editRecord`. -/
def deleteRecordSoft (db : Db) (collection : String) (id : String)
    (currentUser : Option String) (now : Int) (writeErr : Option JSVal) :
    Db × Outcome JSVal :=
  match currentUser with
  | none => (db, .thrown nullUserError)
  | some uid =>
    let data : JSObj :=
      [("updated_at", .timestamp now), ("updated_by", .str uid),
       ("deleted", .bool true)]
    match writeErr with
    | some e => (db, .rejected e)
    | none =>
      match refUpdate (dbGet db collection) id data with
      | .error e => (db, .rejected e)
      | .ok col => (dbSet db collection col, .resolved .undef)

/-- A document snapshot as resolved by a point read: `exists_` is the
snapshot-exists flag, `data` its fields when present. -/
structure Snapshot where
  exists_ : Bool
  data : Option JSObj
deriving DecidableEq

/-- `getRecord` (lines 114-126).  A missing document resolves with a
snapshot whose exists flag is false; only a backing failure rejects. -/
def getRecord (db : Db) (collection : String) (id : String)
    (storeErr : Option JSVal) : Outcome Snapshot :=
  match storeErr with
  | some e => .rejected e
  | none =>
    match alGet (dbGet db collection) id with
    | some d => .resolved ⟨true, some d⟩
    | none => .resolved ⟨false, none⟩

/-- The documents of a collection in store-default order. -/
def allDocs (db : Db) (collection : String) : List JSObj :=
  (dbGet db collection).map Prod.snd

/-- `getRecordAll` (lines 133-145): an unfiltered read of the whole
collection. -/
def getRecordAll (db : Db) (collection : String) (storeErr : Option JSVal) :
    Outcome (List JSObj) :=
  match storeErr with
  | some e => .rejected e
  | none => .resolved (allDocs db collection)

/-- JavaScript `typeof`, which always yields a string. -/
def jsTypeof : JSVal → JSVal
  | .undef => .str "undefined"
  | .null => .str "object"
  | .bool _ => .str "boolean"
  | .num _ => .str "number"
  | .str _ => .str "string"
  | .timestamp _ => .str "object"

/-- JavaScript strict equality on the embedded values: values of different
shapes are never strictly equal. -/
def jsEq (a b : JSVal) : Bool :=
  decide (a = b)

/-- JavaScript array indexing: out of range reads as undefined. -/
def jsIdx (l : List JSVal) (i : Nat) : JSVal :=
  match l[i]? with
  | none => JSVal.undef
  | some v => v

/-- Strict comparison on field values, as the backing store orders numbers,
strings, booleans and timestamps; values of different shapes are
incomparable here (the claims never sort mixed shapes). -/
def jsLtVal : JSVal → JSVal → Bool
  | .num a, .num b => decide (a < b)
  | .str a, .str b => decide (a < b)
  | .bool a, .bool b => !a && b
  | .timestamp a, .timestamp b => decide (a < b)
  | _, _ => false

def jsLeVal (a b : JSVal) : Bool :=
  jsLtVal a b || jsEq a b

/-- The field comparison behind a `where` clause, modelled from the
per-field operators the backing store provides. -/
def evalOp (op : String) (fieldVal v : JSVal) : Bool :=
  if op = "<" then jsLtVal fieldVal v
  else if op = "<=" then jsLeVal fieldVal v
  else if op = "==" then jsEq fieldVal v
  else if op = ">=" then jsLeVal v fieldVal
  else if op = ">" then jsLtVal v fieldVal
  else if op = "!=" then !jsEq fieldVal v
  else false

/-- Stable insertion of `a` into a list already arranged by `le`: `a` lands
after every element it ties with. -/
def insertLe (le : JSObj → JSObj → Bool) (a : JSObj) : List JSObj → List JSObj
  | [] => [a]
  | b :: bs => if le b a then b :: insertLe le a bs else a :: b :: bs

/-- Stable sort by repeated insertion, front to back, so elements that
compare equal keep their incoming order. -/
def sortByLe (le : JSObj → JSObj → Bool) (rs : List JSObj) : List JSObj :=
  rs.foldl (fun acc a => insertLe le a acc) []

/-- One chained call on the backing query object: `where`, `orderBy`,
`startAfter` or `limit`, holding the arguments exactly as the code passed
them. -/
inductive QOp where
  | whereOp (f op v : JSVal)
  | orderByOp (f dir : JSVal)
  | startAfterOp (d : JSObj)
  | limitOp (n : Nat)
deriving DecidableEq

/-- Modelled from the spec: how the backing store executes one chained
query stage over the current result sequence.  A filter keeps the records
whose field satisfies the clause; `orderBy` is a stable sort of the current
sequence, descending only for the direction string "desc" (the store treats
an omitted or undefined direction as ascending); `startAfter d` resumes
strictly after the record `d` in the current order; `limit n` caps the
count. -/
def applyOp (rs : List JSObj) : QOp → List JSObj
  | .whereOp f op v =>
    match f, op with
    | .str fld, .str o => rs.filter (fun r => evalOp o (objGet r fld) v)
    | _, _ => rs
  | .orderByOp f dir =>
    match f with
    | .str fld =>
      if jsEq dir (.str "desc") then
        sortByLe (fun a b => jsLeVal (objGet b fld) (objGet a fld)) rs
      else
        sortByLe (fun a b => jsLeVal (objGet a fld) (objGet b fld)) rs
    | _ => rs
  | .startAfterOp d => (rs.dropWhile (fun r => !decide (r = d))).drop 1
  | .limitOp n => rs.take n

/-- Modelled from the spec: executing a built query runs every chained
stage, in chain order, over the full collection. -/
def executeQuery (db : Db) (collection : String) (q : List QOp) : List JSObj :=
  q.foldl applyOp (allDocs db collection)

/-- The direction argument the code passes to `orderBy` (lines 176-179):
`typeof orderBy[1]` always yields a string and a string is never strictly
equal to the undefined value, so the branch assigning "asc" never fires and
`orderBy[1]` is forwarded as it came (undefined when absent). -/
def dirOf (ob : List JSVal) : JSVal :=
  if jsEq (jsTypeof (jsIdx ob 1)) .undef = true then .str "asc" else jsIdx ob 1

/-- `getRecordWithQuery` (lines 157-200): chains a `where` per clause of
`queryArray` in input order, then `orderBy`, then `startAfter`, then
`limit`, each only when its argument is non-null, and executes the built
query.  `storeErr` is a backing-store failure, if any. -/
def getRecordWithQuery (db : Db) (collection : String)
    (queryArray : Option (List (List JSVal))) (orderBy : Option (List JSVal))
    (startAfter : Option JSObj) (limit : Option Nat)
    (storeErr : Option JSVal) : Outcome (List JSObj) :=
  let q : List QOp := []
  let q := match queryArray with
    | none => q
    | some arr =>
      arr.foldl (fun acc query =>
        acc ++ [QOp.whereOp (jsIdx query 0) (jsIdx query 1) (jsIdx query 2)]) q
  let q := match orderBy with
    | none => q
    | some ob => q ++ [QOp.orderByOp (jsIdx ob 0) (dirOf ob)]
  let q := match startAfter with
    | none => q
    | some d => q ++ [QOp.startAfterOp d]
  let q := match limit with
    | none => q
    | some n => q ++ [QOp.limitOp n]
  match storeErr with
  | some e => .rejected e
  | none => .resolved (executeQuery db collection q)

/-- The environment of one `storeImageOnFirestore` call: the failure, if
any, of each backing step (`fetch(uri)`, `response.blob()`, `ref.put(blob)`,
`ref.getDownloadURL()`), and the download URL on success. -/
structure UploadEnv where
  fetchErr : Option JSVal
  blobErr : Option JSVal
  putErr : Option JSVal
  urlErr : Option JSVal
  url : JSVal
deriving DecidableEq

/-- `storeImageOnFirestore` (lines 209-231).  The promise executor is an
async function: a rejection of `fetch` or `blob` makes the `await` raise
inside the async executor, which rejects only the executor's own discarded
promise — `reject` is never invoked and the returned promise never
settles.  Failures of `put` or `getDownloadURL` are caught by explicit
`.catch` handlers and reject the promise with the original cause. -/
def storeImageOnFirestore (collection userId uri : String)
    (env : UploadEnv) : Outcome JSVal :=
  match env.fetchErr with
  | some _ => .pending
  | none =>
    match env.blobErr with
    | some _ => .pending
    | none =>
      match env.putErr with
      | some e => .rejected e
      | none =>
        match env.urlErr with
        | some e => .rejected e
        | none => .resolved env.url

/-- The filter stage: each clause of `queryArray`, in input order. -/
def filterStage (queryArray : Option (List (List JSVal))) (rs : List JSObj) :
    List JSObj :=
  match queryArray with
  | none => rs
  | some arr =>
    arr.foldl (fun acc query =>
      applyOp acc (.whereOp (jsIdx query 0) (jsIdx query 1) (jsIdx query 2))) rs

/-- The sort stage: the single `orderBy` call, when present. -/
def sortStage (orderBy : Option (List JSVal)) (rs : List JSObj) : List JSObj :=
  match orderBy with
  | none => rs
  | some ob => applyOp rs (.orderByOp (jsIdx ob 0) (dirOf ob))

/-- The cursor stage: the single `startAfter` call, when present. -/
def cursorStage (startAfter : Option JSObj) (rs : List JSObj) : List JSObj :=
  match startAfter with
  | none => rs
  | some d => applyOp rs (.startAfterOp d)

/-- The limit stage: the single `limit` call, when present. -/
def limitStage (limit : Option Nat) (rs : List JSObj) : List JSObj :=
  match limit with
  | none => rs
  | some n => applyOp rs (.limitOp n)

theorem foldl_append_singleton {α β : Type} (l : List α) (f : α → β)
    (init : List β) :
    l.foldl (fun acc x => acc ++ [f x]) init = init ++ l.map f := by
  induction l generalizing init with
  | nil => simp
  | cons x xs ih => simp [ih, List.append_assoc]

/-- The successful read of `getRecordWithQuery` is the staged pipeline
filters, then sort, then cursor, then limit, over the full collection. -/
theorem getRecordWithQuery_staged (db : Db) (collection : String)
    (queryArray : Option (List (List JSVal))) (orderBy : Option (List JSVal))
    (startAfter : Option JSObj) (limit : Option Nat) :
    getRecordWithQuery db collection queryArray orderBy startAfter limit none =
      .resolved (limitStage limit (cursorStage startAfter
        (sortStage orderBy (filterStage queryArray (allDocs db collection))))) := by
  rcases queryArray with _ | arr <;> rcases orderBy with _ | ob <;>
    rcases startAfter with _ | d <;> rcases limit with _ | n <;>
    simp [getRecordWithQuery, executeQuery, filterStage, sortStage,
      cursorStage, limitStage, foldl_append_singleton, List.foldl_append,
      List.foldl_map]

/-- Record A of the collection in the spec scenario: age 17. -/
def recA : JSObj := [("id", .str "A"), ("age", .num 17)]

/-- Record B: age 20. -/
def recB : JSObj := [("id", .str "B"), ("age", .num 20)]

/-- Record C: age 30. -/
def recC : JSObj := [("id", .str "C"), ("age", .num 30)]

/-- Record D: age 40. -/
def recD : JSObj := [("id", .str "D"), ("age", .num 40)]

/-- The database holding the spec scenario collection. -/
def demoDb : Db := [("people", [("A", recA), ("B", recB), ("C", recC), ("D", recD)])]

/-- Claim C1: `getRecordWithQuery` reads in the fixed stage order
filters-then-sort-then-cursor-then-limit (each filter clause in input order
with AND semantics, a cursor resuming strictly after the given record in
the current sort order, a limit capping the count); on the collection
A:age17, B:age20, C:age30, D:age40, the query age > 18 sorted ascending by
age with limit 2 returns exactly [B, C] in that order, and the same query
with a cursor at C returns [D] only. -/
theorem getRecordWithQuery_stage_order_and_examples :
    (∀ (db : Db) (c : String) (qa : Option (List (List JSVal)))
        (ob : Option (List JSVal)) (cur : Option JSObj) (lim : Option Nat),
      getRecordWithQuery db c qa ob cur lim none =
        .resolved (limitStage lim (cursorStage cur (sortStage ob
          (filterStage qa (allDocs db c)))))) ∧
    getRecordWithQuery demoDb "people" (some [[.str "age", .str ">", .num 18]])
      (some [.str "age", .str "asc"]) none (some 2) none =
      .resolved [recB, recC] ∧
    getRecordWithQuery demoDb "people" (some [[.str "age", .str ">", .num 18]])
      (some [.str "age", .str "asc"]) (some recC) (some 2) none =
      .resolved [recD] :=
  ⟨getRecordWithQuery_staged, by decide, by decide⟩

theorem applyOp_orderBy_undef_asc (f : JSVal) (rs : List JSObj) :
    applyOp rs (.orderByOp f .undef) = applyOp rs (.orderByOp f (.str "asc")) := by
  have c1 : jsEq JSVal.undef (JSVal.str "desc") = false := by decide
  have c2 : jsEq (JSVal.str "asc") (JSVal.str "desc") = false := by decide
  cases f <;> simp [applyOp, c1, c2]

/-- Claim C2: when the sort spec is present but carries no explicit
direction, `getRecordWithQuery` behaves exactly as with an explicit
ascending direction (the dead defaulting branch at line 176 forwards the
undefined direction, which the backing store treats as ascending). -/
theorem getRecordWithQuery_defaults_direction_asc (db : Db) (c : String)
    (qa : Option (List (List JSVal))) (ob : List JSVal) (cur : Option JSObj)
    (lim : Option Nat) (err : Option JSVal) (h : jsIdx ob 1 = .undef) :
    getRecordWithQuery db c qa (some ob) cur lim err =
      getRecordWithQuery db c qa (some [jsIdx ob 0, .str "asc"]) cur lim err := by
  have hdir : dirOf ob = .undef := by
    unfold dirOf
    rw [h]
    rfl
  have hdir2 : dirOf [jsIdx ob 0, .str "asc"] = .str "asc" := by
    unfold dirOf
    rfl
  have hsort : ∀ rs, sortStage (some ob) rs =
      sortStage (some [jsIdx ob 0, .str "asc"]) rs := by
    intro rs
    show applyOp rs (.orderByOp (jsIdx ob 0) (dirOf ob)) =
      applyOp rs (.orderByOp (jsIdx [jsIdx ob 0, .str "asc"] 0) (dirOf [jsIdx ob 0, .str "asc"]))
    rw [hdir, hdir2]
    show applyOp rs (.orderByOp (jsIdx ob 0) .undef) =
      applyOp rs (.orderByOp (jsIdx ob 0) (.str "asc"))
    exact applyOp_orderBy_undef_asc _ rs
  cases err with
  | some e => rfl
  | none => rw [getRecordWithQuery_staged, getRecordWithQuery_staged, hsort]

/-- Witness for claim C2 at the sort spec ["age"] with no direction. -/
theorem getRecordWithQuery_defaults_direction_asc_witness :
    jsIdx [JSVal.str "age"] 1 = .undef ∧
    getRecordWithQuery demoDb "people" (some [[.str "age", .str ">", .num 18]])
        (some [JSVal.str "age"]) none (some 2) none =
      getRecordWithQuery demoDb "people" (some [[.str "age", .str ">", .num 18]])
        (some [jsIdx [JSVal.str "age"] 0, .str "asc"]) none (some 2) none :=
  ⟨by decide,
   getRecordWithQuery_defaults_direction_asc demoDb "people"
     (some [[.str "age", .str ">", .num 18]]) [JSVal.str "age"] none (some 2)
     none (by decide)⟩

/-- Claim C9: with all four query arguments null, `getRecordWithQuery`
performs exactly the read of `getRecordAll` and settles with the same
result, on success and on failure alike. -/
theorem getRecordWithQuery_all_null_eq_getRecordAll :
    ∀ (db : Db) (c : String) (err : Option JSVal),
      getRecordWithQuery db c none none none none err = getRecordAll db c err := by
  intro db c err
  cases err <;> rfl

theorem dbSet_dbSet (db : Db) (c : String) (col1 col2 : Collection) :
    dbSet (dbSet db c col1) c col2 = dbSet db c col2 :=
  alSet_alSet db c col1 col2

/-- Claim C8: `deleteRecord` succeeds whether or not the record exists,
deleting twice is the same as deleting once, and a `getRecord` on the same
id afterwards resolves with a does-not-exist snapshot rather than
rejecting. -/
theorem deleteRecord_idempotent_delete_of_absent :
    ∀ (db : Db) (c id : String),
      (deleteRecord db c id none).2 = .resolved .undef ∧
      deleteRecord (deleteRecord db c id none).1 c id none =
        deleteRecord db c id none ∧
      getRecord (deleteRecord db c id none).1 c id none =
        .resolved ⟨false, none⟩ := by
  intro db c id
  refine ⟨rfl, ?_, ?_⟩
  · simp [deleteRecord, dbGet_dbSet_self, alDel_alDel, dbSet_dbSet]
  · simp [getRecord, deleteRecord, dbGet_dbSet_self, alGet_alDel]

/-- Claim C3 (refuted, code bug): a successful `addRecord` resolves with an
object holding only the resolved id — the backing `set` resolves with no
value, so the spread adds nothing — while the record actually stored keeps
the caller fields and the injected `created_at`. -/
theorem addRecord_resolves_only_id :
    (addRecord [] "users" [("name", .str "Al")] "gen1" 7 none).outcome =
      .resolved [("id", .str "gen1")] ∧
    alGet (dbGet (addRecord [] "users" [("name", .str "Al")] "gen1" 7 none).db
        "users") "gen1" =
      some [("name", .str "Al"), ("created_at", .timestamp 7),
        ("id", .str "gen1")] :=
  ⟨by decide, by decide⟩

/-- Claim C5 (refuted, code bug): when reading the bytes from the source
fails (`fetch` or `blob` rejects), the promise returned by
`storeImageOnFirestore` never settles — the rejection inside the async
executor is swallowed — so it neither rejects with the original cause nor
resolves with a URL; a store-write failure, by contrast, does reject. -/
theorem storeImage_swallowed_rejection :
    storeImageOnFirestore "imgs" "u1" "uri1"
      ⟨some (.str "NetworkError"), none, none, none, .str "url"⟩ = .pending ∧
    storeImageOnFirestore "imgs" "u1" "uri1"
      ⟨none, some (.str "BlobError"), none, none, .str "url"⟩ = .pending ∧
    storeImageOnFirestore "imgs" "u1" "uri1"
      ⟨none, none, some (.str "PutError"), none, .str "url"⟩ =
      .rejected (.str "PutError") :=
  ⟨rfl, rfl, rfl⟩

theorem addRecord_eq_fresh (db : Db) (c : String) (data : JSObj)
    (freshId : String) (now : Int) (writeErr : Option JSVal)
    (h : objGet (objSet data "created_at" (.timestamp now)) "id" = .undef ∨
      objGet (objSet data "created_at" (.timestamp now)) "id" = .null) :
    addRecord db c data freshId now writeErr =
      addRecordWithRef db c (objSet data "created_at" (.timestamp now))
        freshId writeErr := by
  simp only [addRecord]
  rw [if_pos h]

theorem addRecord_eq_explicit (db : Db) (c : String) (data : JSObj)
    (freshId s : String) (now : Int) (writeErr : Option JSVal)
    (h : objGet (objSet data "created_at" (.timestamp now)) "id" = .str s) :
    addRecord db c data freshId now writeErr =
      addRecordWithRef db c (objSet data "created_at" (.timestamp now))
        s writeErr := by
  simp only [addRecord]
  rw [h, if_neg (by simp)]

theorem objGet_objSet_created_at_id (data : JSObj) (now : Int) :
    objGet (objSet data "created_at" (.timestamp now)) "id" = objGet data "id" := by
  rw [objGet_objSet, if_neg (by decide)]

theorem addRecordWithRef_none (db : Db) (c : String) (data : JSObj)
    (refId : String) :
    addRecordWithRef db c data refId none =
      ⟨objSet data "id" (.str refId),
       dbSet db c (refSet (dbGet db c) refId (objSet data "id" (.str refId))),
       .resolved [("id", .str refId)]⟩ :=
  rfl

theorem addRecordWithRef_err (db : Db) (c : String) (data : JSObj)
    (refId : String) (e : JSVal) :
    addRecordWithRef db c data refId (some e) =
      ⟨objSet data "id" (.str refId), db, .rejected e⟩ :=
  rfl

/-- Claim C6: `addRecord` with an absent or null id stores the record under
the fresh id the backing store minted (assumed non-empty and absent from
the collection, per the store contract), and with an explicit id X it
stores under X exactly, overwriting any existing record there without
error. -/
theorem addRecord_id_semantics :
    (∀ (db : Db) (c : String) (data : JSObj) (freshId : String) (now : Int),
      (objGet data "id" = .undef ∨ objGet data "id" = .null) →
      freshId ≠ "" →
      alGet (dbGet db c) freshId = none →
      objGet (addRecord db c data freshId now none).data "id" = .str freshId ∧
      alGet (dbGet (addRecord db c data freshId now none).db c) freshId =
        some (addRecord db c data freshId now none).data ∧
      (addRecord db c data freshId now none).outcome =
        .resolved [("id", .str freshId)]) ∧
    (∀ (db : Db) (c : String) (data : JSObj) (freshId s : String) (now : Int),
      objGet data "id" = .str s →
      objGet (addRecord db c data freshId now none).data "id" = .str s ∧
      alGet (dbGet (addRecord db c data freshId now none).db c) s =
        some (addRecord db c data freshId now none).data ∧
      (addRecord db c data freshId now none).outcome =
        .resolved [("id", .str s)]) := by
  constructor
  · intro db c data freshId now h hne habs
    rw [addRecord_eq_fresh db c data freshId now none
      (by rw [objGet_objSet_created_at_id]; exact h)]
    rw [addRecordWithRef_none]
    refine ⟨?_, ?_, rfl⟩
    · show objGet (objSet (objSet data "created_at" (.timestamp now)) "id"
        (.str freshId)) "id" = .str freshId
      rw [objGet_objSet, if_pos rfl]
    · show alGet (dbGet (dbSet db c (refSet (dbGet db c) freshId _)) c)
        freshId = _
      rw [dbGet_dbSet_self]
      unfold refSet
      rw [alGet_alSet, if_pos rfl]
  · intro db c data freshId s now h
    rw [addRecord_eq_explicit db c data freshId s now none
      (by rw [objGet_objSet_created_at_id]; exact h)]
    rw [addRecordWithRef_none]
    refine ⟨?_, ?_, rfl⟩
    · show objGet (objSet (objSet data "created_at" (.timestamp now)) "id"
        (.str s)) "id" = .str s
      rw [objGet_objSet, if_pos rfl]
    · show alGet (dbGet (dbSet db c (refSet (dbGet db c) s _)) c) s = _
      rw [dbGet_dbSet_self]
      unfold refSet
      rw [alGet_alSet, if_pos rfl]

/-- Witness for claim C6: a record with no id stored under the minted id
"f1", and a record with explicit id "A" stored under "A" over the existing
record A of the demo collection. -/
theorem addRecord_id_semantics_witness :
    (objGet (addRecord [] "users" [("name", JSVal.str "Al")] "f1" 0 none).data
        "id" = .str "f1" ∧
      alGet (dbGet (addRecord [] "users" [("name", JSVal.str "Al")] "f1" 0
          none).db "users") "f1" =
        some (addRecord [] "users" [("name", JSVal.str "Al")] "f1" 0 none).data ∧
      (addRecord [] "users" [("name", JSVal.str "Al")] "f1" 0 none).outcome =
        .resolved [("id", .str "f1")]) ∧
    (objGet (addRecord demoDb "people"
          [("id", JSVal.str "A"), ("x", JSVal.num 1)] "f2" 3 none).data "id" =
        .str "A" ∧
      alGet (dbGet (addRecord demoDb "people"
          [("id", JSVal.str "A"), ("x", JSVal.num 1)] "f2" 3 none).db "people")
          "A" =
        some (addRecord demoDb "people"
          [("id", JSVal.str "A"), ("x", JSVal.num 1)] "f2" 3 none).data ∧
      (addRecord demoDb "people"
          [("id", JSVal.str "A"), ("x", JSVal.num 1)] "f2" 3 none).outcome =
        .resolved [("id", .str "A")]) :=
  ⟨addRecord_id_semantics.1 [] "users" [("name", JSVal.str "Al")] "f1" 0
      (Or.inl (by decide)) (by decide) (by decide),
   addRecord_id_semantics.2 demoDb "people"
      [("id", JSVal.str "A"), ("x", JSVal.num 1)] "f2" "A" 3 (by decide)⟩

/-- Claim C10: `addRecord` mutates the caller-supplied object in place —
`created_at` is set and `id` is overwritten with the document reference id
— and the mutations are still there when the backing write fails and the
promise rejects. -/
theorem addRecord_mutates_caller_object :
    (∀ (db : Db) (c : String) (data : JSObj) (freshId : String) (now : Int)
        (e : JSVal),
      (objGet data "id" = .undef ∨ objGet data "id" = .null) →
      (addRecord db c data freshId now (some e)).outcome = .rejected e ∧
      objGet (addRecord db c data freshId now (some e)).data "created_at" =
        .timestamp now ∧
      objGet (addRecord db c data freshId now (some e)).data "id" =
        .str freshId ∧
      (addRecord db c data freshId now (some e)).db = db) ∧
    (∀ (db : Db) (c : String) (data : JSObj) (freshId s : String) (now : Int)
        (e : JSVal),
      objGet data "id" = .str s →
      (addRecord db c data freshId now (some e)).outcome = .rejected e ∧
      objGet (addRecord db c data freshId now (some e)).data "created_at" =
        .timestamp now ∧
      objGet (addRecord db c data freshId now (some e)).data "id" = .str s ∧
      (addRecord db c data freshId now (some e)).db = db) := by
  constructor
  · intro db c data freshId now e h
    rw [addRecord_eq_fresh db c data freshId now (some e)
      (by rw [objGet_objSet_created_at_id]; exact h)]
    rw [addRecordWithRef_err]
    refine ⟨rfl, ?_, ?_, rfl⟩
    · show objGet (objSet (objSet data "created_at" (.timestamp now)) "id"
        (.str freshId)) "created_at" = .timestamp now
      rw [objGet_objSet, if_neg (by decide), objGet_objSet, if_pos rfl]
    · show objGet (objSet (objSet data "created_at" (.timestamp now)) "id"
        (.str freshId)) "id" = .str freshId
      rw [objGet_objSet, if_pos rfl]
  · intro db c data freshId s now e h
    rw [addRecord_eq_explicit db c data freshId s now (some e)
      (by rw [objGet_objSet_created_at_id]; exact h)]
    rw [addRecordWithRef_err]
    refine ⟨rfl, ?_, ?_, rfl⟩
    · show objGet (objSet (objSet data "created_at" (.timestamp now)) "id"
        (.str s)) "created_at" = .timestamp now
      rw [objGet_objSet, if_neg (by decide), objGet_objSet, if_pos rfl]
    · show objGet (objSet (objSet data "created_at" (.timestamp now)) "id"
        (.str s)) "id" = .str s
      rw [objGet_objSet, if_pos rfl]

/-- Witness for claim C10: the caller object keeps the injected
`created_at` and overwritten `id` although the write rejected. -/
theorem addRecord_mutates_caller_object_witness :
    ((addRecord [] "users" [("name", JSVal.str "Al")] "f1" 4
        (some (.str "PermissionDenied"))).outcome =
        .rejected (.str "PermissionDenied") ∧
      objGet (addRecord [] "users" [("name", JSVal.str "Al")] "f1" 4
          (some (.str "PermissionDenied"))).data "created_at" = .timestamp 4 ∧
      objGet (addRecord [] "users" [("name", JSVal.str "Al")] "f1" 4
          (some (.str "PermissionDenied"))).data "id" = .str "f1" ∧
      (addRecord [] "users" [("name", JSVal.str "Al")] "f1" 4
          (some (.str "PermissionDenied"))).db = []) ∧
    ((addRecord demoDb "people" [("id", JSVal.str "B")] "f3" 4
        (some (.str "PermissionDenied"))).outcome =
        .rejected (.str "PermissionDenied") ∧
      objGet (addRecord demoDb "people" [("id", JSVal.str "B")] "f3" 4
          (some (.str "PermissionDenied"))).data "created_at" = .timestamp 4 ∧
      objGet (addRecord demoDb "people" [("id", JSVal.str "B")] "f3" 4
          (some (.str "PermissionDenied"))).data "id" = .str "B" ∧
      (addRecord demoDb "people" [("id", JSVal.str "B")] "f3" 4
          (some (.str "PermissionDenied"))).db = demoDb) :=
  ⟨addRecord_mutates_caller_object.1 [] "users" [("name", JSVal.str "Al")]
      "f1" 4 (.str "PermissionDenied") (Or.inl (by decide)),
   addRecord_mutates_caller_object.2 demoDb "people" [("id", JSVal.str "B")]
      "f3" "B" 4 (.str "PermissionDenied") (by decide)⟩

/-- Claim C7: for an existing record, `editRecord` injects `updated_at` at
the current server time and performs a partial merge — every stored field
outside the keys of the caller object and different from `updated_at`
keeps its previous value. -/
theorem editRecord_partial_merge :
    ∀ (db : Db) (c id : String) (data : JSObj) (now : Int) (doc : JSObj),
      alGet (dbGet db c) id = some doc →
      (data.map Prod.fst).Nodup →
      (editRecord db c id data now none).outcome = .resolved .undef ∧
      ∃ newdoc,
        alGet (dbGet (editRecord db c id data now none).db c) id = some newdoc ∧
        objGet newdoc "updated_at" = .timestamp now ∧
        ∀ k, k ∉ data.map Prod.fst → k ≠ "updated_at" →
          objGet newdoc k = objGet doc k := by
  intro db c id data now doc hdoc hnd
  have hupd : refUpdate (dbGet db c) id
      (objSet data "updated_at" (.timestamp now)) =
      .ok (alSet (dbGet db c) id
        (objMerge doc (objSet data "updated_at" (.timestamp now)))) := by
    unfold refUpdate
    rw [hdoc]
  have he : editRecord db c id data now none =
      ⟨objSet data "updated_at" (.timestamp now),
       dbSet db c (alSet (dbGet db c) id
         (objMerge doc (objSet data "updated_at" (.timestamp now)))),
       .resolved .undef⟩ := by
    simp only [editRecord]
    rw [hupd]
  rw [he]
  refine ⟨rfl,
    ⟨objMerge doc (objSet data "updated_at" (.timestamp now)), ?_, ?_, ?_⟩⟩
  · show alGet (dbGet (dbSet db c _) c) id = _
    rw [dbGet_dbSet_self, alGet_alSet, if_pos rfl]
  · have h1 : alGet (objSet data "updated_at" (.timestamp now)) "updated_at" =
        some (.timestamp now) := by
      unfold objSet
      rw [alGet_alSet, if_pos rfl]
    have h2 := alGet_objMerge_mem doc
      (objSet data "updated_at" (.timestamp now)) "updated_at" (.timestamp now)
      (nodup_keys_alSet data "updated_at" (.timestamp now) hnd) h1
    unfold objGet
    rw [h2]
  · intro k hk hk2
    have hkm : k ∉ (objSet data "updated_at" (.timestamp now)).map Prod.fst := by
      intro hmem
      rcases (mem_keys_alSet data "updated_at" k (.timestamp now)).mp hmem with
        h3 | h3
      · exact hk2 h3
      · exact hk h3
    unfold objGet
    rw [alGet_objMerge_notMem doc _ k hkm]

/-- Witness for claim C7: updating record A of the demo collection with a
single field x leaves id and age unchanged and stamps updated_at. -/
theorem editRecord_partial_merge_witness :
    (editRecord demoDb "people" "A" [("x", JSVal.num 5)] 9 none).outcome =
      .resolved .undef ∧
    ∃ newdoc,
      alGet (dbGet (editRecord demoDb "people" "A" [("x", JSVal.num 5)] 9
          none).db "people") "A" = some newdoc ∧
      objGet newdoc "updated_at" = .timestamp 9 ∧
      ∀ k, k ∉ ([("x", JSVal.num 5)] : JSObj).map Prod.fst →
        k ≠ "updated_at" → objGet newdoc k = objGet recA k :=
  editRecord_partial_merge demoDb "people" "A" [("x", JSVal.num 5)] 9 recA
    (by decide) (by decide)

/-- Claim C4 (counterexample): with no authenticated user,
`deleteRecordSoft` does not return a rejecting promise — reading
`currentUser.uid` throws synchronously before the promise is constructed. -/
theorem deleteRecordSoft_noauth_throws :
    deleteRecordSoft demoDb "people" "A" none 5 none =
      (demoDb, .thrown nullUserError) ∧
    ¬ ∃ e, (deleteRecordSoft demoDb "people" "A" none 5 none).2 =
      Outcome.rejected e :=
  ⟨rfl, fun ⟨_, h⟩ => Outcome.noConfusion h⟩

/-- Claim C4 as amended: with an authenticated actor, `deleteRecordSoft` is
an update merging exactly updated_at = now, updated_by = actor id and
deleted = true onto the existing record, every other field unchanged; with
no authenticated actor it fails synchronously, throwing before any promise
is created, instead of rejecting a returned promise. -/
theorem deleteRecordSoft_spec :
    (∀ (db : Db) (c id uid : String) (now : Int) (doc : JSObj),
      alGet (dbGet db c) id = some doc →
      (deleteRecordSoft db c id (some uid) now none).2 = .resolved .undef ∧
      ∃ newdoc,
        alGet (dbGet (deleteRecordSoft db c id (some uid) now none).1 c) id =
          some newdoc ∧
        objGet newdoc "updated_at" = .timestamp now ∧
        objGet newdoc "updated_by" = .str uid ∧
        objGet newdoc "deleted" = .bool true ∧
        ∀ k, k ≠ "updated_at" → k ≠ "updated_by" → k ≠ "deleted" →
          objGet newdoc k = objGet doc k) ∧
    (∀ (db : Db) (c id : String) (now : Int),
      deleteRecordSoft db c id none now none = (db, .thrown nullUserError)) := by
  constructor
  · intro db c id uid now doc hdoc
    have hupd : refUpdate (dbGet db c) id
        [("updated_at", .timestamp now), ("updated_by", .str uid),
         ("deleted", .bool true)] =
        .ok (alSet (dbGet db c) id
          (objMerge doc [("updated_at", .timestamp now),
            ("updated_by", .str uid), ("deleted", .bool true)])) := by
      unfold refUpdate
      rw [hdoc]
    have he : deleteRecordSoft db c id (some uid) now none =
        (dbSet db c (alSet (dbGet db c) id
          (objMerge doc [("updated_at", .timestamp now),
            ("updated_by", .str uid), ("deleted", .bool true)])),
         .resolved .undef) := by
      simp only [deleteRecordSoft]
      rw [hupd]
    rw [he]
    have hm : objMerge doc [("updated_at", .timestamp now),
        ("updated_by", .str uid), ("deleted", .bool true)] =
        alSet (alSet (alSet doc "updated_at" (.timestamp now))
          "updated_by" (.str uid)) "deleted" (.bool true) := rfl
    refine ⟨rfl, ⟨objMerge doc [("updated_at", .timestamp now),
      ("updated_by", .str uid), ("deleted", .bool true)], ?_, ?_, ?_, ?_, ?_⟩⟩
    · show alGet (dbGet (dbSet db c _) c) id = _
      rw [dbGet_dbSet_self, alGet_alSet, if_pos rfl]
    · unfold objGet
      rw [hm, alGet_alSet, if_neg (by decide), alGet_alSet,
        if_neg (by decide), alGet_alSet, if_pos rfl]
    · unfold objGet
      rw [hm, alGet_alSet, if_neg (by decide), alGet_alSet, if_pos rfl]
    · unfold objGet
      rw [hm, alGet_alSet, if_pos rfl]
    · intro k hk1 hk2 hk3
      unfold objGet
      rw [hm, alGet_alSet, if_neg (fun h => hk3 h.symm), alGet_alSet,
        if_neg (fun h => hk2 h.symm), alGet_alSet,
        if_neg (fun h => hk1 h.symm)]
  · intro db c id now
    rfl

/-- Witness for the amended claim C4: soft-deleting record A of the demo
collection with actor u9 flags it deleted and leaves id and age unchanged;
with no authenticated user the call throws. -/
theorem deleteRecordSoft_spec_witness :
    ((deleteRecordSoft demoDb "people" "A" (some "u9") 6 none).2 =
        .resolved .undef ∧
      ∃ newdoc,
        alGet (dbGet (deleteRecordSoft demoDb "people" "A" (some "u9") 6
            none).1 "people") "A" = some newdoc ∧
        objGet newdoc "updated_at" = .timestamp 6 ∧
        objGet newdoc "updated_by" = .str "u9" ∧
        objGet newdoc "deleted" = .bool true ∧
        ∀ k, k ≠ "updated_at" → k ≠ "updated_by" → k ≠ "deleted" →
          objGet newdoc k = objGet recA k) ∧
    deleteRecordSoft demoDb "people" "B" none 6 none =
      (demoDb, .thrown nullUserError) :=
  ⟨deleteRecordSoft_spec.1 demoDb "people" "A" "u9" 6 recA (by decide),
   deleteRecordSoft_spec.2 demoDb "people" "B" 6⟩
